import Mathlib

/-!
Verification of `sportradar_api_etl.py` (Sportradar tennis ETL pipeline).

The script is embedded shallowly:

* JSON / Python values are the inductive `PyVal` (Python `None`, booleans,
  integers, strings, lists, dicts).  Python truthiness is `truthy`,
  Python `a or b` is `pyOr`, `d.get(k)` is `pyGet` / `pyGetD`, and a
  `.get` on a value that may not be a dict is the fallible `pyGetA`
  (raising `AttributeError` on non-dicts, as Python does).
* Fallible Python code is embedded in `Except PyErr`; a raised exception
  is an `Except.error`.
* The normalizers `normalize_competition`, `normalize_category`,
  `normalize_complex`, `normalize_venue`, `normalize_competitor` and
  `normalize_ranking` follow the source line by line.
* The HTTP fetcher `get` is embedded over an injected stream of attempt
  outcomes (`Attempt`), recording the number of attempts made and the
  total seconds slept.
* The upsert writer `upsert_table` and the orchestrator `main` run over
  a store `Store := String → List Row` with injected storage failures.
-/

/-- Python values as produced by `resp.json()` and manipulated by the
ETL script: `None`, booleans, integers, strings, lists and dicts
(dicts are ordered association lists, as Python dicts preserve
insertion order). -/
inductive PyVal where
  | none : PyVal
  | bool (b : Bool) : PyVal
  | int (n : Int) : PyVal
  | str (s : String) : PyVal
  | list (l : List PyVal) : PyVal
  | dict (d : List (String × PyVal)) : PyVal
  deriving Repr

/-- Python exceptions that the script can raise: `AttributeError`
(e.g. `.get` on `None`), `TypeError` (e.g. slicing a non-sequence or
iterating a non-iterable), `requests.HTTPError` (from
`raise_for_status`), a network-level `requests.RequestException`, and
`RuntimeError` with its message. -/
inductive PyErr where
  | attrError : PyErr
  | typeError : PyErr
  | httpError (status : Nat) : PyErr
  | requestError : PyErr
  | sqlError : PyErr
  | runtimeError (msg : String) : PyErr
  deriving DecidableEq, Repr

mutual

/-- Structural equality on `PyVal` (Python `==` restricted to the JSON
fragment).  Used computationally, e.g. to compare primary-key values. -/
def PyVal.beq : PyVal → PyVal → Bool
  | .none, .none => true
  | .bool a, .bool b => a == b
  | .int a, .int b => a == b
  | .str a, .str b => a == b
  | .list l1, .list l2 => PyVal.beqList l1 l2
  | .dict d1, .dict d2 => PyVal.beqDict d1 d2
  | _, _ => false

def PyVal.beqList : List PyVal → List PyVal → Bool
  | [], [] => true
  | a :: xs, b :: ys => PyVal.beq a b && PyVal.beqList xs ys
  | _, _ => false

def PyVal.beqDict : List (String × PyVal) → List (String × PyVal) → Bool
  | [], [] => true
  | (k1, v1) :: xs, (k2, v2) :: ys => k1 == k2 && PyVal.beq v1 v2 && PyVal.beqDict xs ys
  | _, _ => false

end

/-- Python truthiness: `None`, `False`, `0`, `""`, `[]` and `{}` are
falsy, everything else is truthy. -/
def truthy : PyVal → Bool
  | .none => false
  | .bool b => b
  | .int n => n != 0
  | .str s => s != ""
  | .list l => !l.isEmpty
  | .dict d => !d.isEmpty

/-- Python `a or b`: `a` if truthy, else `b`. -/
def pyOr (a b : PyVal) : PyVal := if truthy a then a else b

/-- Lookup of a key in a dict, distinguishing an absent key (`Option.none`)
from a key bound to Python `None`. -/
def pyLookup (d : List (String × PyVal)) (k : String) : Option PyVal :=
  (d.find? (fun kv => kv.1 == k)).map (fun kv => kv.2)

/-- Python `d.get(k)`: the bound value, or `None` when the key is absent. -/
def pyGet (d : List (String × PyVal)) (k : String) : PyVal :=
  (pyLookup d k).getD PyVal.none

/-- Python `d.get(k, default)`: the bound value, or `default` when the key
is absent (a key bound to `None` yields `None`, not the default). -/
def pyGetD (d : List (String × PyVal)) (k : String) (dflt : PyVal) : PyVal :=
  (pyLookup d k).getD dflt

/-- Python `v.get(k)` where `v` may not be a dict: raises
`AttributeError` on non-dicts (in particular on `None`). -/
def pyGetA : PyVal → String → Except PyErr PyVal
  | .dict d, k => .ok (pyGet d k)
  | _, _ => .error .attrError

/-- Python `v.get(k, default)` where `v` may not be a dict. -/
def pyGetAD : PyVal → String → PyVal → Except PyErr PyVal
  | .dict d, k, dflt => .ok (pyGetD d k dflt)
  | _, _, _ => .error .attrError

/-- Python `v[:10]`: slicing works on strings and lists, and raises
`TypeError` otherwise. -/
def pySlice10 : PyVal → Except PyErr PyVal
  | .str s => .ok (.str (s.take 10))
  | .list l => .ok (.list (l.take 10))
  | _ => .error .typeError

/-- Python `for x in v`: lists yield their elements, strings their
one-character substrings, dicts their keys; other values raise
`TypeError`. -/
def pyIter : PyVal → Except PyErr (List PyVal)
  | .list l => .ok l
  | .str s => .ok (s.toList.map (fun c => .str (String.mk [c])))
  | .dict d => .ok (d.map (fun kv => .str kv.1))
  | _ => .error .typeError

/-- The empty Python dict `{}`. -/
def emptyDict : PyVal := .dict []

/-- A flat row, as built by the normalizers: a Python dict with string
keys, kept in the order the source writes the fields. -/
def Row : Type := List (String × PyVal)

/-- Field access on a produced row. -/
def rowGet (r : Row) (k : String) : PyVal := pyGet r k

/-- The `category_id` resolution of `normalize_competition`:
`json_item.get('category_id') or json_item.get('category', {}).get('id')`
(the nested access is only evaluated when `category_id` is falsy). -/
def category_id_of (d : List (String × PyVal)) : Except PyErr PyVal :=
  if truthy (pyGet d "category_id") then pure (pyGet d "category_id")
  else pyGetA (pyGetD d "category" emptyDict) "id"

/-- The `complex_id` resolution of `normalize_venue`:
`json_item.get('complex_id') or (json_item.get('complex') or {}).get('id')`. -/
def complex_id_of (d : List (String × PyVal)) : Except PyErr PyVal :=
  if truthy (pyGet d "complex_id") then pure (pyGet d "complex_id")
  else pyGetA (pyOr (pyGet d "complex") emptyDict) "id"

/-- The `abbreviation` resolution of `normalize_competitor`:
`json_item.get('abbreviation') or json_item.get('abbr') or (json_item.get('name') or '')[:10]`
(each disjunct is only evaluated when the previous ones are falsy). -/
def abbreviation_of (d : List (String × PyVal)) : Except PyErr PyVal :=
  if truthy (pyGet d "abbreviation") then pure (pyGet d "abbreviation")
  else if truthy (pyGet d "abbr") then pure (pyGet d "abbr")
  else pySlice10 (pyOr (pyGet d "name") (.str ""))

/-- Embeds `normalize_competition`: maps competition JSON to the flat
`Competitions` row.  `category_id` is
`json_item.get('category_id') or json_item.get('category', {}).get('id')`
— note the `.get('category', {})` defaults only an *absent* key, so a
`category` bound to `None` reaches `.get('id')` and raises. -/
def normalize_competition : PyVal → Except PyErr Row
  | .dict d => do
      let category_id ← category_id_of d
      pure [("competition_id", pyOr (pyGet d "id") (pyGet d "competition_id")),
            ("competition_name", pyOr (pyGet d "name") (pyOr (pyGet d "competition_name") (.str ""))),
            ("parent_id", pyGet d "parent_id"),
            ("type", pyOr (pyGet d "type") (pyOr (pyGet d "competition_type") (.str ""))),
            ("gender", pyOr (pyGet d "gender") (pyOr (pyGet d "gender_type") (.str ""))),
            ("category_id", category_id)]
  | _ => .error .attrError

/-- Embeds `normalize_category`: maps category JSON to the flat `Categories` row. -/
def normalize_category : PyVal → Except PyErr Row
  | .dict d =>
      pure [("category_id", pyGet d "id"),
            ("category_name", pyOr (pyGet d "name") (pyOr (pyGet d "category_name") (.str "")))]
  | _ => .error .attrError

/-- Embeds `normalize_complex`: maps complex JSON to the flat `Complexes` row. -/
def normalize_complex : PyVal → Except PyErr Row
  | .dict d =>
      pure [("complex_id", pyGet d "id"),
            ("complex_name", pyOr (pyGet d "name") (pyOr (pyGet d "complex_name") (.str "")))]
  | _ => .error .attrError

/-- Embeds `normalize_venue`: maps venue JSON to the flat `Venues` row.  Nested
`city`, `country` and `complex` objects are guarded with `or {}`, so a
value of `None` is replaced by the empty dict before `.get`. -/
def normalize_venue : PyVal → Except PyErr Row
  | .dict d => do
      let city_name ← pyGetA (pyOr (pyGet d "city") emptyDict) "name"
      let country_name ← pyGetA (pyOr (pyGet d "country") emptyDict) "name"
      let country_code ← pyGetA (pyOr (pyGet d "country") emptyDict) "code"
      let complex_id ← complex_id_of d
      pure [("venue_id", pyGet d "id"),
            ("venue_name", pyOr (pyGet d "name") (pyOr (pyGet d "venue_name") (.str ""))),
            ("city_name", pyOr city_name (pyOr (pyGet d "city_name") (.str ""))),
            ("country_name", pyOr country_name (pyOr (pyGet d "country_name") (.str ""))),
            ("country_code", pyOr country_code (pyOr (pyGet d "country_code") (.str "UNK"))),
            ("timezone", pyOr (pyGet d "timezone") (pyOr (pyGet d "tz") (.str ""))),
            ("complex_id", complex_id)]
  | _ => .error .attrError

/-- Embeds `normalize_competitor`: maps competitor JSON to the flat
`Competitors` row.  The abbreviation fallback slices the *raw* `name`
key — `(json_item.get('name') or '')[:10]` — not the resolved
`name or full_name` value. -/
def normalize_competitor : PyVal → Except PyErr Row
  | .dict d => do
      let country ← pyGetA (pyOr (pyGet d "country") emptyDict) "name"
      let country_code ← pyGetA (pyOr (pyGet d "country") emptyDict) "code"
      let abbreviation ← abbreviation_of d
      pure [("competitor_id", pyGet d "id"),
            ("name", pyOr (pyGet d "name") (pyOr (pyGet d "full_name") (.str ""))),
            ("country", pyOr country (pyOr (pyGet d "country_name") (.str ""))),
            ("country_code", pyOr country_code (pyOr (pyGet d "country_code") (.str "UNK"))),
            ("abbreviation", abbreviation)]
  | _ => .error .attrError

/-- Embeds `normalize_ranking`: maps a ranking item to the flat
`Competitor_Rankings` row.  `competitor_id` is
`(json_item.get('competitor') or {}).get('id') or json_item.get('competitor_id')`. -/
def normalize_ranking : PyVal → Except PyErr Row
  | .dict d => do
      let cid ← pyGetA (pyOr (pyGet d "competitor") emptyDict) "id"
      pure [("rank_pos", pyGet d "rank"),
            ("movement", pyOr (pyGet d "movement") (.int 0)),
            ("points", pyOr (pyGet d "points") (.int 0)),
            ("competitions_played", pyOr (pyGet d "competitions_played") (pyOr (pyGet d "competitions") (.int 0))),
            ("competitor_id", pyOr cid (pyGet d "competitor_id")),
            ("ranking_date", pyOr (pyGet d "ranking_date") PyVal.none)]
  | _ => .error .attrError

/-- Outcome of one HTTP attempt inside `get`: either a network-level
`requests.RequestException`, or a response with a status code and a
parsed JSON body. -/
inductive Attempt where
  | netErr : Attempt
  | resp (status : Nat) (body : PyVal) : Attempt
  deriving Repr

/-- The HTTP status of an attempt outcome, when a response arrived. -/
def respStatus : Attempt → Option Nat
  | .netErr => Option.none
  | .resp s _ => some s

/-- What a call to `get` did: how many attempts it made, the total
seconds it slept in backoff, and the value it returned or the exception
it raised. -/
structure GetResult where
  attempts : Nat
  slept : Nat
  result : Except PyErr PyVal
  deriving Repr

/-- The retry loop of `get` (`for attempt in range(max_retries)`),
driven by the injected stream `responses` of attempt outcomes.
Status 200 returns the body.  Status 429/503 backs off
`(attempt+1)*5` seconds and retries.  Any other status logs the error
and calls `resp.raise_for_status()`, which raises `HTTPError` only for
4xx/5xx statuses; that `HTTPError` is a subclass of
`requests.RequestException` and is therefore caught by the enclosing
`except requests.RequestException` handler, which sleeps
`(attempt+1)*2` seconds and retries — so a fatal status is *not*
surfaced to the caller.  For a non-200 status outside 400–599 (e.g.
204 or 304) `raise_for_status` is a no-op and the loop falls through
to the next attempt without sleeping.  A network exception sleeps
`(attempt+1)*2` and retries.  Falling off the loop raises
`RuntimeError('Max retries exceeded for URL: ...')`. -/
def get_loop (responses : Nat → Attempt) (url : String) : Nat → Nat → Nat → GetResult
  | 0, attempt, slept =>
      ⟨attempt, slept, .error (.runtimeError ("Max retries exceeded for URL: " ++ url))⟩
  | remaining + 1, attempt, slept =>
      match responses attempt with
      | .resp status body =>
          if status = 200 then ⟨attempt + 1, slept, .ok body⟩
          else if status = 429 ∨ status = 503 then
            get_loop responses url remaining (attempt + 1) (slept + (attempt + 1) * 5)
          else if 400 ≤ status ∧ status < 600 then
            get_loop responses url remaining (attempt + 1) (slept + (attempt + 1) * 2)
          else
            get_loop responses url remaining (attempt + 1) slept
      | .netErr =>
          get_loop responses url remaining (attempt + 1) (slept + (attempt + 1) * 2)

/-- Embeds `get(engine, url, params=None, max_retries=5)`, with the HTTP layer
injected as the stream `responses`. -/
def get (responses : Nat → Attempt) (url : String) (max_retries : Nat) : GetResult :=
  get_loop responses url max_retries 0 0

/-- How an `upsert_table` call ended: early return on an empty batch,
a single commit of `count` rows (the logged count), or a rollback after
a storage-layer error. -/
inductive UpsertStatus where
  | emptyNoOp : UpsertStatus
  | committed (count : Nat) : UpsertStatus
  | rolledBack : UpsertStatus
  deriving DecidableEq, Repr

/-- The observable result of `upsert_table`: the Python value it
returns (the source returns `None` on every path — bare `return` for an
empty batch, falling off the end otherwise) and how it ended. -/
structure UpsertResult where
  retval : PyVal
  status : UpsertStatus

/-- The database: a mapping from table name to the table's rows. -/
def Store : Type := String → List Row

/-- Overwrite one table of the store. -/
def setTable (s : Store) (name : String) (tbl : List Row) : Store :=
  fun t => if t = name then tbl else s t

/-- MySQL `REPLACE INTO` semantics for one row: any existing row with
the same primary-key value is deleted, then the new row is inserted.
The source builds the statement textually and relies on the table's
primary key; here the key is the `pk` column name the caller passes. -/
def replaceInto (pk : String) (tbl : List Row) (row : Row) : List Row :=
  tbl.filter (fun r => !(PyVal.beq (rowGet r pk) (rowGet row pk))) ++ [row]

/-- The `try` body of `upsert_table`: execute the `REPLACE INTO`
statement once per row, then `trans.commit()`.  A storage failure is
injected by `failAt`: `some i` with `i` below the batch size makes the
`i`-th `conn.execute` raise `SQLAlchemyError`, and `i` equal to the
batch size makes the commit raise. -/
def exec_replace (failAt : Option Nat) (pk : String) :
    List Row → Nat → List Row → Except PyErr (List Row)
  | [], i, tbl => if failAt = some i then .error .sqlError else .ok tbl
  | row :: rest, i, tbl =>
      if failAt = some i then .error .sqlError
      else exec_replace failAt pk rest (i + 1) (replaceInto pk tbl row)

/-- Embeds `upsert_table(engine, table_name, rows, pk)`: empty batches return
immediately; otherwise the whole batch runs in one transaction, and a
`SQLAlchemyError` anywhere in it rolls the transaction back, logs, and
returns normally (the exception is not re-raised). -/
def upsert_table (failAt : Option Nat) (store : Store) (table_name : String)
    (rows : List Row) (pk : String) : Store × UpsertResult :=
  if rows.isEmpty then (store, ⟨PyVal.none, .emptyNoOp⟩)
  else
    match exec_replace failAt pk rows 0 (store table_name) with
    | .ok tbl => (setTable store table_name tbl, ⟨PyVal.none, .committed rows.length⟩)
    | .error _ => (store, ⟨PyVal.none, .rolledBack⟩)

/-- The body of the `for cat in categories` loop of endpoint group 1:
each category yields a `Categories` row, and the competitions nested
under it (`cat.get('competitions') or []`) yield `Competitions` rows. -/
def group1_loop : List PyVal → Except PyErr (List Row × List Row)
  | [] => pure ([], [])
  | cat :: rest => do
      let catRow ← normalize_category cat
      let comps ← pyGetA cat "competitions"
      let compList ← pyIter (pyOr comps (.list []))
      let compRows ← compList.mapM normalize_competition
      let tail ← group1_loop rest
      pure (catRow :: tail.1, compRows ++ tail.2)

/-- Extraction and normalization of endpoint group 1
(competitions + categories):
`categories = data.get('categories') or data.get('category', [])`,
`competitions = data.get('competitions') or data.get('items') or []`,
then the category loop followed by the top-level competitions. -/
def group1_rows (data : PyVal) : Except PyErr (List Row × List Row) := do
  let cats0 ← pyGetA data "categories"
  let categories ← if truthy cats0 then pure cats0 else pyGetAD data "category" (.list [])
  let comps0 ← pyGetA data "competitions"
  let items ← pyGetA data "items"
  let competitions := pyOr comps0 (pyOr items (.list []))
  let catList ← pyIter categories
  let nested ← group1_loop catList
  let compList ← pyIter competitions
  let topRows ← compList.mapM normalize_competition
  pure (nested.1, nested.2 ++ topRows)

/-- The body of the `for comp in complexes` loop of endpoint group 2:
each complex yields a `Complexes` row and its `comp.get('venues', [])`
yield `Venues` rows. -/
def group2_loop : List PyVal → Except PyErr (List Row × List Row)
  | [] => pure ([], [])
  | comp :: rest => do
      let compRow ← normalize_complex comp
      let venues ← pyGetAD comp "venues" (.list [])
      let venueList ← pyIter venues
      let venueRows ← venueList.mapM normalize_venue
      let tail ← group2_loop rest
      pure (compRow :: tail.1, venueRows ++ tail.2)

/-- Extraction and normalization of endpoint group 2
(complexes + venues):
`complexes = data.get('complexes') or data.get('items') or []`. -/
def group2_rows (data : PyVal) : Except PyErr (List Row × List Row) := do
  let cx0 ← pyGetA data "complexes"
  let items ← pyGetA data "items"
  let complexes := pyOr cx0 (pyOr items (.list []))
  let cxList ← pyIter complexes
  group2_loop cxList

/-- The body of the `for r in rankings` loop of endpoint group 3:
`competitor = (r.get('competitor') or {})` contributes a `Competitors`
row only when truthy (`if competitor:`), and every ranking item
contributes a `Competitor_Rankings` row. -/
def group3_loop : List PyVal → Except PyErr (List Row × List Row)
  | [] => pure ([], [])
  | r :: rest => do
      let comp0 ← pyGetA r "competitor"
      let competitor := pyOr comp0 emptyDict
      let compRows ←
        if truthy competitor then do
          let row ← normalize_competitor competitor
          pure [row]
        else pure ([] : List Row)
      let rankRow ← normalize_ranking r
      let tail ← group3_loop rest
      pure (compRows ++ tail.1, rankRow :: tail.2)

/-- Extraction and normalization of endpoint group 3
(doubles rankings + competitors):
`rankings = data.get('rankings') or data.get('items') or []`. -/
def group3_rows (data : PyVal) : Except PyErr (List Row × List Row) := do
  let r0 ← pyGetA data "rankings"
  let items ← pyGetA data "items"
  let rankings := pyOr r0 (pyOr items (.list []))
  let rList ← pyIter rankings
  group3_loop rList

/-- The `competitions` endpoint template from the `ENDPOINTS` config dict. -/
def ENDPOINTS_competitions : String :=
  "https://api.sportradar.com/tennis/trial/v2/en/competitions.json?api_key=\x7bapi_key\x7d"

/-- The `complexes` endpoint template from the `ENDPOINTS` config dict. -/
def ENDPOINTS_complexes : String :=
  "https://api.sportradar.com/tennis/trial/v2/en/complexes.json?api_key=\x7bapi_key\x7d"

/-- The `doubles_rankings` endpoint template from the `ENDPOINTS` config dict. -/
def ENDPOINTS_doubles_rankings : String :=
  "https://api.sportradar.com/tennis/trial/v2/en/doubles_competitor_rankings.json?api_key=\x7bapi_key\x7d"

/-- Python `template.format(api_key=key)` for these templates. -/
def format_api_key (template key : String) : String :=
  template.replace "\x7bapi_key\x7d" key

/-- The external world one run of `main` interacts with: the attempt
outcomes each of the three endpoints would produce, and the injected
storage failure (if any) for each table's upsert, in the format of
`exec_replace`. -/
structure World where
  competitionsApi : Nat → Attempt
  complexesApi : Nat → Attempt
  rankingsApi : Nat → Attempt
  dbFail : String → Option Nat

/-- The contents `upsert_table` leaves in its target table, as a
function of that table's prior contents: unchanged for an empty batch
or a rolled-back transaction, else every row replaced in. -/
def tableEffect (failAt : Option Nat) (rows : List Row) (pk : String)
    (tbl : List Row) : List Row :=
  if rows.isEmpty then tbl
  else
    match exec_replace failAt pk rows 0 tbl with
    | .ok t2 => t2
    | .error _ => tbl

/-- Fetch plus extraction for endpoint group 1: the rows both batches
get, or the first exception raised (by `get` or by traversal). -/
def group1_result (fetched : GetResult) : Except PyErr (List Row × List Row) :=
  match fetched.result with
  | .error e => .error e
  | .ok data => group1_rows data

/-- Fetch plus extraction for endpoint group 2. -/
def group2_result (fetched : GetResult) : Except PyErr (List Row × List Row) :=
  match fetched.result with
  | .error e => .error e
  | .ok data => group2_rows data

/-- Fetch plus extraction for endpoint group 3. -/
def group3_result (fetched : GetResult) : Except PyErr (List Row × List Row) :=
  match fetched.result with
  | .error e => .error e
  | .ok data => group3_rows data

/-- Endpoint group 1 of `main` (competitions + categories), wrapped in
`try ... except Exception`: an exception anywhere in fetch, extraction
or normalization is caught and logged, leaving the store untouched;
otherwise the two batches are upserted in order (`Categories` first,
then `Competitions`). -/
def process_group1 (fetched : GetResult) (dbF : String → Option Nat) (store : Store) : Store :=
  match group1_result fetched with
  | .error _ => store
  | .ok rows =>
      let s1 := (upsert_table (dbF "Categories") store "Categories" rows.1 "category_id").1
      (upsert_table (dbF "Competitions") s1 "Competitions" rows.2 "competition_id").1

/-- Endpoint group 2 of `main` (complexes + venues), wrapped like group 1;
upserts `Complexes` then `Venues`. -/
def process_group2 (fetched : GetResult) (dbF : String → Option Nat) (store : Store) : Store :=
  match group2_result fetched with
  | .error _ => store
  | .ok rows =>
      let s1 := (upsert_table (dbF "Complexes") store "Complexes" rows.1 "complex_id").1
      (upsert_table (dbF "Venues") s1 "Venues" rows.2 "venue_id").1

/-- Endpoint group 3 of `main` (doubles rankings + competitors), wrapped
like group 1; upserts `Competitors` then `Competitor_Rankings`. -/
def process_group3 (fetched : GetResult) (dbF : String → Option Nat) (store : Store) : Store :=
  match group3_result fetched with
  | .error _ => store
  | .ok rows =>
      let s1 := (upsert_table (dbF "Competitors") store "Competitors" rows.1 "competitor_id").1
      (upsert_table (dbF "Competitor_Rankings") s1 "Competitor_Rankings" rows.2 "rank_id").1

/-- The orchestrated flow of the source's `main` after the startup
configuration check (which exits the process before any network or
storage activity and is not part of the per-group pipeline): the three
endpoint groups run in sequence over the store, each isolated by its
own `try ... except Exception` block, with `max_retries` left at its
default of 5.  (Named `main_flow` because Lean reserves `main`.) -/
def main_flow (w : World) (apiKey : String) (store : Store) : Store :=
  let s1 := process_group1 (get w.competitionsApi (format_api_key ENDPOINTS_competitions apiKey) 5) w.dbFail store
  let s2 := process_group2 (get w.complexesApi (format_api_key ENDPOINTS_complexes apiKey) 5) w.dbFail s1
  process_group3 (get w.rankingsApi (format_api_key ENDPOINTS_doubles_rankings apiKey) 5) w.dbFail s2

/-- Non-null guard used by the `or {}` idiom: the value at `k` is
absent, `None`, or itself a dict. -/
def nestedOk (d : List (String × PyVal)) (k : String) : Bool :=
  match pyGet d k with
  | PyVal.none => true
  | PyVal.dict _ => true
  | _ => false

/-- Values Python can slice with `[:10]`. -/
def sliceable : PyVal → Bool
  | .str _ => true
  | .list _ => true
  | _ => false

/-- Inputs on which `normalize_competition` cannot raise: a truthy
`category_id` short-circuits the nested access, or else
`json_item.get('category', {})` must itself be a dict — which holds for
an absent `category` but *not* for a `category` bound to `None`. -/
def compOk (d : List (String × PyVal)) : Bool :=
  truthy (pyGet d "category_id") ||
    (match pyGetD d "category" emptyDict with
     | PyVal.dict _ => true
     | _ => false)

/-- Inputs on which `normalize_venue` cannot raise. -/
def venueOk (d : List (String × PyVal)) : Bool :=
  nestedOk d "city" && nestedOk d "country" &&
    (truthy (pyGet d "complex_id") || nestedOk d "complex")

/-- Inputs on which `normalize_competitor` cannot raise. -/
def competitorOk (d : List (String × PyVal)) : Bool :=
  nestedOk d "country" &&
    (truthy (pyGet d "abbreviation") || truthy (pyGet d "abbr") ||
      sliceable (pyOr (pyGet d "name") (.str "")))

/-- Inputs on which `normalize_ranking` cannot raise. -/
def rankingOk (d : List (String × PyVal)) : Bool :=
  nestedOk d "competitor"

/-- The `if competitor:` guard of the rankings loop: whether a ranking
item carries a truthy `competitor` value. -/
def hasCompetitor : PyVal → Bool
  | .dict d => truthy (pyGet d "competitor")
  | _ => false

/-- Ranking items on which the body of the rankings loop cannot raise:
a dict whose `competitor` value is either falsy or a dict accepted by
`competitorOk`. -/
def rankItemOk : PyVal → Bool
  | .dict d =>
      (match pyGet d "competitor" with
       | .dict c => competitorOk c
       | v => !(truthy v))
  | _ => false

/-- Total seconds slept by the 429/503 backoff over `n` consecutive
rate-limited attempts starting at attempt index `a`:
`(a+1)*5 + (a+2)*5 + ...`. -/
def backoffSum : Nat → Nat → Nat
  | 0, _ => 0
  | n + 1, a => (a + 1) * 5 + backoffSum n (a + 1)

theorem pyOr_pos {a : PyVal} (b : PyVal) (h : truthy a = true) : pyOr a b = a := by
  simp [pyOr, h]

theorem pyOr_neg {a : PyVal} (b : PyVal) (h : truthy a = false) : pyOr a b = b := by
  simp [pyOr, h]

theorem category_id_of_pos (d : List (String × PyVal))
    (hp : truthy (pyGet d "category_id") = true) :
    category_id_of d = .ok (pyGet d "category_id") := by
  unfold category_id_of; rw [hp]; rfl

theorem category_id_of_neg (d : List (String × PyVal))
    (hp : truthy (pyGet d "category_id") = false) :
    category_id_of d = pyGetA (pyGetD d "category" emptyDict) "id" := by
  unfold category_id_of; rw [hp]; rfl

theorem complex_id_of_pos (d : List (String × PyVal))
    (hp : truthy (pyGet d "complex_id") = true) :
    complex_id_of d = .ok (pyGet d "complex_id") := by
  unfold complex_id_of; rw [hp]; rfl

theorem complex_id_of_neg (d : List (String × PyVal))
    (hp : truthy (pyGet d "complex_id") = false) :
    complex_id_of d = pyGetA (pyOr (pyGet d "complex") emptyDict) "id" := by
  unfold complex_id_of; rw [hp]; rfl

theorem abbreviation_of_pos (d : List (String × PyVal))
    (hp : truthy (pyGet d "abbreviation") = true) :
    abbreviation_of d = .ok (pyGet d "abbreviation") := by
  unfold abbreviation_of; rw [hp]; rfl

theorem abbreviation_of_abbr (d : List (String × PyVal))
    (h1 : truthy (pyGet d "abbreviation") = false)
    (h2 : truthy (pyGet d "abbr") = true) :
    abbreviation_of d = .ok (pyGet d "abbr") := by
  unfold abbreviation_of; rw [h1, h2]; rfl

theorem abbreviation_of_slice (d : List (String × PyVal))
    (h1 : truthy (pyGet d "abbreviation") = false)
    (h2 : truthy (pyGet d "abbr") = false) :
    abbreviation_of d = pySlice10 (pyOr (pyGet d "name") (.str "")) := by
  unfold abbreviation_of; rw [h1, h2]; rfl

theorem exceptBind_ok {α β : Type} (a : α) (f : α → Except PyErr β) :
    (Except.ok a >>= f) = f a := rfl

theorem exceptBind_error {α β : Type} (e : PyErr) (f : α → Except PyErr β) :
    ((Except.error e : Except PyErr α) >>= f) = Except.error e := rfl

theorem bind_eq_ok {α β : Type} {x : Except PyErr α} {f : α → Except PyErr β} {b : β}
    (h : (x >>= f) = .ok b) : ∃ a, x = .ok a ∧ f a = .ok b := by
  cases x with
  | ok a => exact ⟨a, rfl, h⟩
  | error e => rw [exceptBind_error] at h; exact Except.noConfusion h

theorem nestedOk_dict {d : List (String × PyVal)} {k : String}
    (h : nestedOk d k = true) : ∃ e, pyOr (pyGet d k) emptyDict = PyVal.dict e := by
  unfold nestedOk at h
  cases hx : pyGet d k with
  | none => exact ⟨[], by simp [pyOr, hx, truthy, emptyDict]⟩
  | dict e =>
      cases ht : truthy (PyVal.dict e) with
      | true => exact ⟨e, pyOr_pos _ ht⟩
      | false => exact ⟨[], pyOr_neg _ ht⟩
  | bool b => rw [hx] at h; exact Bool.noConfusion h
  | int n => rw [hx] at h; exact Bool.noConfusion h
  | str s => rw [hx] at h; exact Bool.noConfusion h
  | list l => rw [hx] at h; exact Bool.noConfusion h

theorem pure_eq_ok {α : Type} {a b : α} (h : (pure a : Except PyErr α) = .ok b) : a = b :=
  Except.ok.inj h

theorem normalize_competition_total (d : List (String × PyVal)) (h : compOk d = true) :
    ∃ r, normalize_competition (.dict d) = .ok r := by
  unfold compOk at h
  simp only [normalize_competition]
  cases ht : truthy (pyGet d "category_id") with
  | true => rw [category_id_of_pos d ht]; exact ⟨_, rfl⟩
  | false =>
      rw [ht] at h
      simp only [Bool.false_or] at h
      rw [category_id_of_neg d ht]
      cases hc : pyGetD d "category" emptyDict with
      | dict e => exact ⟨_, rfl⟩
      | none => rw [hc] at h; exact Bool.noConfusion h
      | bool b => rw [hc] at h; exact Bool.noConfusion h
      | int n => rw [hc] at h; exact Bool.noConfusion h
      | str s => rw [hc] at h; exact Bool.noConfusion h
      | list l => rw [hc] at h; exact Bool.noConfusion h

theorem normalize_venue_total (d : List (String × PyVal)) (h : venueOk d = true) :
    ∃ r, normalize_venue (.dict d) = .ok r := by
  unfold venueOk at h
  simp only [Bool.and_eq_true, Bool.or_eq_true] at h
  obtain ⟨⟨h1, h2⟩, h3⟩ := h
  obtain ⟨e1, he1⟩ := nestedOk_dict h1
  obtain ⟨e2, he2⟩ := nestedOk_dict h2
  simp only [normalize_venue]
  rw [he1, he2]
  cases h3 with
  | inl ht => rw [complex_id_of_pos d ht]; exact ⟨_, rfl⟩
  | inr hn =>
      obtain ⟨e3, he3⟩ := nestedOk_dict hn
      cases ht : truthy (pyGet d "complex_id") with
      | true => rw [complex_id_of_pos d ht]; exact ⟨_, rfl⟩
      | false => rw [complex_id_of_neg d ht, he3]; exact ⟨_, rfl⟩

theorem normalize_competitor_total (d : List (String × PyVal)) (h : competitorOk d = true) :
    ∃ r, normalize_competitor (.dict d) = .ok r := by
  unfold competitorOk at h
  simp only [Bool.and_eq_true, Bool.or_eq_true] at h
  obtain ⟨h1, h2⟩ := h
  obtain ⟨e1, he1⟩ := nestedOk_dict h1
  simp only [normalize_competitor]
  rw [he1]
  rcases h2 with (ht | ht) | hs
  · rw [abbreviation_of_pos d ht]; exact ⟨_, rfl⟩
  · cases ha : truthy (pyGet d "abbreviation") with
    | true => rw [abbreviation_of_pos d ha]; exact ⟨_, rfl⟩
    | false => rw [abbreviation_of_abbr d ha ht]; exact ⟨_, rfl⟩
  · cases ha : truthy (pyGet d "abbreviation") with
    | true => rw [abbreviation_of_pos d ha]; exact ⟨_, rfl⟩
    | false =>
        cases hb : truthy (pyGet d "abbr") with
        | true => rw [abbreviation_of_abbr d ha hb]; exact ⟨_, rfl⟩
        | false =>
            rw [abbreviation_of_slice d ha hb]
            cases hv : pyOr (pyGet d "name") (.str "") with
            | str s => exact ⟨_, rfl⟩
            | list l => exact ⟨_, rfl⟩
            | none => rw [hv] at hs; exact Bool.noConfusion hs
            | bool b => rw [hv] at hs; exact Bool.noConfusion hs
            | int n => rw [hv] at hs; exact Bool.noConfusion hs
            | dict e => rw [hv] at hs; exact Bool.noConfusion hs

theorem normalize_ranking_total (d : List (String × PyVal)) (h : rankingOk d = true) :
    ∃ r, normalize_ranking (.dict d) = .ok r := by
  obtain ⟨e, he⟩ := nestedOk_dict h
  simp only [normalize_ranking]
  rw [he]
  exact ⟨_, rfl⟩

/-- C1: the claim says a non-200 status other than 429/503 is treated
as fatal and surfaced immediately to the caller, aborting the endpoint
group.  The code contradicts this: `resp.raise_for_status()` sits
inside the `try` block whose `except requests.RequestException` clause
also catches `HTTPError` (a subclass of `RequestException`), so the
fatal status is logged, its exception swallowed, the loop sleeps the
`(attempt+1)*2` network-error backoff and retries.  Evaluated here: a
fetch answered with HTTP 404 on every attempt makes all 5 attempts,
sleeps 2+4+6+8+10 = 30 seconds, and ends with the RetriesExhausted
`RuntimeError` — the HTTP error itself never reaches the caller. -/
theorem fatal_status_is_retried_not_surfaced :
    get (fun _ => .resp 404 PyVal.none) "https://api.example.test/x" 5 =
      ⟨5, 30, .error (.runtimeError
        "Max retries exceeded for URL: https://api.example.test/x")⟩ := rfl

/-- C2 counterexample: on the spec's example input
`{"id": 7, "full_name": "Jane Roe", "country": {"name": "USA", "code": "US"}}`
the abbreviation is `""`, not the first 10 characters of the resolved
name "Jane Roe": the fallback slices the raw `name` key, which is
absent here. -/
theorem competitor_example_abbreviation_empty :
    normalize_competitor (.dict [("id", .int 7), ("full_name", .str "Jane Roe"),
        ("country", .dict [("name", .str "USA"), ("code", .str "US")])]) =
      .ok [("competitor_id", .int 7), ("name", .str "Jane Roe"), ("country", .str "USA"),
           ("country_code", .str "US"), ("abbreviation", .str "")] ∧
    PyVal.str "" ≠ PyVal.str (String.take "Jane Roe" 10) := by
  refine ⟨rfl, ?_⟩
  intro hcontr
  injection hcontr with h2
  revert h2
  decide

/-- C2 (amended): when neither `abbreviation` nor `abbr` is truthy, the
abbreviation is the first 10 characters of the *raw* `name` key
(`(json_item.get('name') or '')[:10]`), not of the resolved
`name or full_name` value; with `name` bound to a string `s` the field
is `s[:10]` (and for absent `name` it is `""`, as in the example). -/
theorem competitor_abbreviation_slices_raw_name
    (d : List (String × PyVal)) (s : String) (row : Row)
    (h1 : truthy (pyGet d "abbreviation") = false)
    (h2 : truthy (pyGet d "abbr") = false)
    (h3 : pyGet d "name" = .str s)
    (h4 : normalize_competitor (.dict d) = .ok row) :
    rowGet row "abbreviation" = .str (s.take 10) := by
  simp only [normalize_competitor] at h4
  obtain ⟨cv, hc, h4⟩ := bind_eq_ok h4
  obtain ⟨cc, hcc, h4⟩ := bind_eq_ok h4
  rw [abbreviation_of_slice d h1 h2, h3] at h4
  have hsl : pySlice10 (pyOr (.str s) (.str "")) = .ok (.str (s.take 10)) := by
    by_cases hs : s = ""
    · subst hs; rfl
    · rw [pyOr_pos _ (by simp [truthy, hs])]; rfl
  rw [hsl] at h4
  obtain ⟨ab, hab, h4⟩ := bind_eq_ok h4
  injection hab with hab2
  subst hab2
  have h5 := pure_eq_ok h4
  subst h5
  rfl

/-- Witness for C2 (amended) at the concrete input
`{"name": "Novak Djokovic"}`. -/
theorem competitor_abbreviation_slices_raw_name_witness :
    rowGet [("competitor_id", PyVal.none), ("name", .str "Novak Djokovic"),
            ("country", .str ""), ("country_code", .str "UNK"),
            ("abbreviation", .str "Novak Djok")] "abbreviation" =
      .str (String.take "Novak Djokovic" 10) :=
  competitor_abbreviation_slices_raw_name [("name", .str "Novak Djokovic")]
    "Novak Djokovic"
    [("competitor_id", PyVal.none), ("name", .str "Novak Djokovic"),
     ("country", .str ""), ("country_code", .str "UNK"),
     ("abbreviation", .str "Novak Djok")]
    (by decide) (by decide) rfl rfl

/-- C3 counterexamples: (a) with the nested `category` present but
bound to null, `normalize_competition` raises `AttributeError` — only
an *absent* `category` is replaced by `{}` (the source uses
`.get('category', {})`, not the `or {}` guard of the other
normalizers); (b) with every nested sub-object absent but `name` bound
to the number 5, `normalize_competitor` raises `TypeError` at the
`(json_item.get('name') or '')[:10]` slice; (c) with `country` bound
to the truthy non-object 5, `normalize_venue` raises `AttributeError`
at `(json_item.get('country') or {}).get('name')`. -/
theorem normalizer_raise_counterexamples :
    normalize_competition (.dict [("category", PyVal.none)]) = .error .attrError ∧
    normalize_competitor (.dict [("name", .int 5)]) = .error .typeError ∧
    normalize_venue (.dict [("country", .int 5)]) = .error .attrError :=
  ⟨rfl, rfl, rfl⟩

/-- C3 (amended): each normalizer returns a row without raising exactly
under the following guards, with absent and null nested sub-objects
treated as empty mappings before traversal.  `normalize_category` and
`normalize_complex` never raise on any object.  `normalize_competition`
needs a truthy `category_id` or a `category` that is absent or an
object: a null `category` raises `AttributeError` when `category_id`
is falsy, since `.get('category', {})` defaults only an absent key
(`compOk`).  `normalize_venue` needs `city` and `country` each absent,
null or an object, and a truthy `complex_id` or a `complex` that is
absent, null or an object (`venueOk`).  `normalize_competitor` needs
`country` absent, null or an object and — when `abbreviation` and
`abbr` are both falsy — a raw `name` value that is falsy, a string or
a list, since slicing any other truthy value (e.g. the number 5) with
`[:10]` raises `TypeError` (`competitorOk`).  `normalize_ranking`
needs `competitor` absent, null or an object (`rankingOk`). -/
theorem normalizers_never_raise_when_guarded (d : List (String × PyVal)) :
    (compOk d = true → ∃ r, normalize_competition (.dict d) = .ok r) ∧
    (∃ r, normalize_category (.dict d) = .ok r) ∧
    (∃ r, normalize_complex (.dict d) = .ok r) ∧
    (venueOk d = true → ∃ r, normalize_venue (.dict d) = .ok r) ∧
    (competitorOk d = true → ∃ r, normalize_competitor (.dict d) = .ok r) ∧
    (rankingOk d = true → ∃ r, normalize_ranking (.dict d) = .ok r) :=
  ⟨normalize_competition_total d, ⟨_, rfl⟩, ⟨_, rfl⟩, normalize_venue_total d,
   normalize_competitor_total d, normalize_ranking_total d⟩

/-- Witness for C3 (amended) at a JSON object whose nested `country`,
`city`, `complex` and `competitor` are all null and whose `category` is
absent. -/
theorem normalizers_never_raise_when_guarded_witness :
    (∃ r, normalize_competition (.dict [("country", PyVal.none), ("city", PyVal.none),
        ("complex", PyVal.none), ("competitor", PyVal.none)]) = .ok r) ∧
    (∃ r, normalize_venue (.dict [("country", PyVal.none), ("city", PyVal.none),
        ("complex", PyVal.none), ("competitor", PyVal.none)]) = .ok r) ∧
    (∃ r, normalize_competitor (.dict [("country", PyVal.none), ("city", PyVal.none),
        ("complex", PyVal.none), ("competitor", PyVal.none)]) = .ok r) ∧
    (∃ r, normalize_ranking (.dict [("country", PyVal.none), ("city", PyVal.none),
        ("complex", PyVal.none), ("competitor", PyVal.none)]) = .ok r) :=
  ⟨(normalizers_never_raise_when_guarded _).1 (by decide),
   (normalizers_never_raise_when_guarded _).2.2.2.1 (by decide),
   (normalizers_never_raise_when_guarded _).2.2.2.2.1 (by decide),
   (normalizers_never_raise_when_guarded _).2.2.2.2.2 (by decide)⟩

/-- C4: each normalizer applied to the empty JSON object (every
optional key missing) yields exactly the specified defaults — `""` for
name/type/gender/city/country-name/timezone fields, 0 for movement,
points and competitions_played, `"UNK"` for country codes, and `None`
for `ranking_date` and every unresolvable identifier — and none of the
calls raises. -/
theorem normalizer_defaults_on_empty_object :
    normalize_competition emptyDict =
      .ok [("competition_id", PyVal.none), ("competition_name", .str ""),
           ("parent_id", PyVal.none), ("type", .str ""), ("gender", .str ""),
           ("category_id", PyVal.none)] ∧
    normalize_category emptyDict =
      .ok [("category_id", PyVal.none), ("category_name", .str "")] ∧
    normalize_complex emptyDict =
      .ok [("complex_id", PyVal.none), ("complex_name", .str "")] ∧
    normalize_venue emptyDict =
      .ok [("venue_id", PyVal.none), ("venue_name", .str ""), ("city_name", .str ""),
           ("country_name", .str ""), ("country_code", .str "UNK"), ("timezone", .str ""),
           ("complex_id", PyVal.none)] ∧
    normalize_competitor emptyDict =
      .ok [("competitor_id", PyVal.none), ("name", .str ""), ("country", .str ""),
           ("country_code", .str "UNK"), ("abbreviation", .str "")] ∧
    normalize_ranking emptyDict =
      .ok [("rank_pos", PyVal.none), ("movement", .int 0), ("points", .int 0),
           ("competitions_played", .int 0), ("competitor_id", PyVal.none),
           ("ranking_date", PyVal.none)] :=
  ⟨rfl, rfl, rfl, rfl, rfl, rfl⟩

theorem truthy_dict_of_field {c : List (String × PyVal)} {k : String}
    (h : truthy (pyGet c k) = true) : truthy (PyVal.dict c) = true := by
  cases c with
  | nil => exact Bool.noConfusion h
  | cons a t => rfl

theorem normalize_competition_row (d : List (String × PyVal)) (row : Row)
    (h : normalize_competition (.dict d) = .ok row) :
    ∃ cid, category_id_of d = .ok cid ∧
      row = [("competition_id", pyOr (pyGet d "id") (pyGet d "competition_id")),
             ("competition_name", pyOr (pyGet d "name") (pyOr (pyGet d "competition_name") (.str ""))),
             ("parent_id", pyGet d "parent_id"),
             ("type", pyOr (pyGet d "type") (pyOr (pyGet d "competition_type") (.str ""))),
             ("gender", pyOr (pyGet d "gender") (pyOr (pyGet d "gender_type") (.str ""))),
             ("category_id", cid)] := by
  simp only [normalize_competition] at h
  obtain ⟨cid, hc, h⟩ := bind_eq_ok h
  exact ⟨cid, hc, (pure_eq_ok h).symm⟩

theorem normalize_venue_row (d : List (String × PyVal)) (row : Row)
    (h : normalize_venue (.dict d) = .ok row) :
    ∃ cn ctn ctc cxid,
      pyGetA (pyOr (pyGet d "city") emptyDict) "name" = .ok cn ∧
      pyGetA (pyOr (pyGet d "country") emptyDict) "name" = .ok ctn ∧
      pyGetA (pyOr (pyGet d "country") emptyDict) "code" = .ok ctc ∧
      complex_id_of d = .ok cxid ∧
      row = [("venue_id", pyGet d "id"),
             ("venue_name", pyOr (pyGet d "name") (pyOr (pyGet d "venue_name") (.str ""))),
             ("city_name", pyOr cn (pyOr (pyGet d "city_name") (.str ""))),
             ("country_name", pyOr ctn (pyOr (pyGet d "country_name") (.str ""))),
             ("country_code", pyOr ctc (pyOr (pyGet d "country_code") (.str "UNK"))),
             ("timezone", pyOr (pyGet d "timezone") (pyOr (pyGet d "tz") (.str ""))),
             ("complex_id", cxid)] := by
  simp only [normalize_venue] at h
  obtain ⟨cn, h1, h⟩ := bind_eq_ok h
  obtain ⟨ctn, h2, h⟩ := bind_eq_ok h
  obtain ⟨ctc, h3, h⟩ := bind_eq_ok h
  obtain ⟨cxid, h4, h⟩ := bind_eq_ok h
  exact ⟨cn, ctn, ctc, cxid, h1, h2, h3, h4, (pure_eq_ok h).symm⟩

theorem normalize_competitor_row (d : List (String × PyVal)) (row : Row)
    (h : normalize_competitor (.dict d) = .ok row) :
    ∃ ctn ctc ab,
      pyGetA (pyOr (pyGet d "country") emptyDict) "name" = .ok ctn ∧
      pyGetA (pyOr (pyGet d "country") emptyDict) "code" = .ok ctc ∧
      abbreviation_of d = .ok ab ∧
      row = [("competitor_id", pyGet d "id"),
             ("name", pyOr (pyGet d "name") (pyOr (pyGet d "full_name") (.str ""))),
             ("country", pyOr ctn (pyOr (pyGet d "country_name") (.str ""))),
             ("country_code", pyOr ctc (pyOr (pyGet d "country_code") (.str "UNK"))),
             ("abbreviation", ab)] := by
  simp only [normalize_competitor] at h
  obtain ⟨ctn, h1, h⟩ := bind_eq_ok h
  obtain ⟨ctc, h2, h⟩ := bind_eq_ok h
  obtain ⟨ab, h3, h⟩ := bind_eq_ok h
  exact ⟨ctn, ctc, ab, h1, h2, h3, (pure_eq_ok h).symm⟩

theorem normalize_ranking_row (d : List (String × PyVal)) (row : Row)
    (h : normalize_ranking (.dict d) = .ok row) :
    ∃ cid, pyGetA (pyOr (pyGet d "competitor") emptyDict) "id" = .ok cid ∧
      row = [("rank_pos", pyGet d "rank"),
             ("movement", pyOr (pyGet d "movement") (.int 0)),
             ("points", pyOr (pyGet d "points") (.int 0)),
             ("competitions_played",
               pyOr (pyGet d "competitions_played") (pyOr (pyGet d "competitions") (.int 0))),
             ("competitor_id", pyOr cid (pyGet d "competitor_id")),
             ("ranking_date", pyOr (pyGet d "ranking_date") PyVal.none)] := by
  simp only [normalize_ranking] at h
  obtain ⟨cid, h1, h⟩ := bind_eq_ok h
  exact ⟨cid, h1, (pure_eq_ok h).symm⟩

/-- C5: for every normalizer and every target field with a primary and
an alternate source key, the candidates are evaluated in the source
order and the first non-empty (truthy) one is taken.  In particular,
when both keys are present and the primary is non-empty the primary
wins; when the primary is absent or empty a non-empty alternate wins
(shown for the representative `competition_name`, competitor `name` and
`competitions_played` fields).  Covers every coalesced field of all six
normalizers, including the nested primaries `category.id`, `city.name`,
`country.name`/`country.code` and `competitor.id`. -/
theorem field_resolution_order (d : List (String × PyVal)) :
    (∀ row, normalize_competition (.dict d) = .ok row →
      truthy (pyGet d "id") = true → rowGet row "competition_id" = pyGet d "id") ∧
    (∀ row, normalize_competition (.dict d) = .ok row →
      truthy (pyGet d "name") = true → rowGet row "competition_name" = pyGet d "name") ∧
    (∀ row, normalize_competition (.dict d) = .ok row →
      truthy (pyGet d "name") = false → truthy (pyGet d "competition_name") = true →
      rowGet row "competition_name" = pyGet d "competition_name") ∧
    (∀ row, normalize_competition (.dict d) = .ok row →
      truthy (pyGet d "type") = true → rowGet row "type" = pyGet d "type") ∧
    (∀ row, normalize_competition (.dict d) = .ok row →
      truthy (pyGet d "gender") = true → rowGet row "gender" = pyGet d "gender") ∧
    (∀ row, normalize_competition (.dict d) = .ok row →
      truthy (pyGet d "category_id") = true → rowGet row "category_id" = pyGet d "category_id") ∧
    (∀ row, normalize_category (.dict d) = .ok row →
      truthy (pyGet d "name") = true → rowGet row "category_name" = pyGet d "name") ∧
    (∀ row, normalize_complex (.dict d) = .ok row →
      truthy (pyGet d "name") = true → rowGet row "complex_name" = pyGet d "name") ∧
    (∀ row, normalize_venue (.dict d) = .ok row →
      truthy (pyGet d "name") = true → rowGet row "venue_name" = pyGet d "name") ∧
    (∀ c row, normalize_venue (.dict d) = .ok row → pyGet d "city" = .dict c →
      truthy (pyGet c "name") = true → rowGet row "city_name" = pyGet c "name") ∧
    (∀ c row, normalize_venue (.dict d) = .ok row → pyGet d "country" = .dict c →
      truthy (pyGet c "name") = true → rowGet row "country_name" = pyGet c "name") ∧
    (∀ c row, normalize_venue (.dict d) = .ok row → pyGet d "country" = .dict c →
      truthy (pyGet c "code") = true → rowGet row "country_code" = pyGet c "code") ∧
    (∀ row, normalize_venue (.dict d) = .ok row →
      truthy (pyGet d "timezone") = true → rowGet row "timezone" = pyGet d "timezone") ∧
    (∀ row, normalize_venue (.dict d) = .ok row →
      truthy (pyGet d "complex_id") = true → rowGet row "complex_id" = pyGet d "complex_id") ∧
    (∀ row, normalize_competitor (.dict d) = .ok row →
      truthy (pyGet d "name") = true → rowGet row "name" = pyGet d "name") ∧
    (∀ row, normalize_competitor (.dict d) = .ok row →
      truthy (pyGet d "name") = false → truthy (pyGet d "full_name") = true →
      rowGet row "name" = pyGet d "full_name") ∧
    (∀ c row, normalize_competitor (.dict d) = .ok row → pyGet d "country" = .dict c →
      truthy (pyGet c "name") = true → rowGet row "country" = pyGet c "name") ∧
    (∀ c row, normalize_competitor (.dict d) = .ok row → pyGet d "country" = .dict c →
      truthy (pyGet c "code") = true → rowGet row "country_code" = pyGet c "code") ∧
    (∀ row, normalize_competitor (.dict d) = .ok row →
      truthy (pyGet d "abbreviation") = true → rowGet row "abbreviation" = pyGet d "abbreviation") ∧
    (∀ row, normalize_competitor (.dict d) = .ok row →
      truthy (pyGet d "abbreviation") = false → truthy (pyGet d "abbr") = true →
      rowGet row "abbreviation" = pyGet d "abbr") ∧
    (∀ row, normalize_ranking (.dict d) = .ok row →
      truthy (pyGet d "competitions_played") = true →
      rowGet row "competitions_played" = pyGet d "competitions_played") ∧
    (∀ row, normalize_ranking (.dict d) = .ok row →
      truthy (pyGet d "competitions_played") = false → truthy (pyGet d "competitions") = true →
      rowGet row "competitions_played" = pyGet d "competitions") ∧
    (∀ c row, normalize_ranking (.dict d) = .ok row → pyGet d "competitor" = .dict c →
      truthy (pyGet c "id") = true → rowGet row "competitor_id" = pyGet c "id") := by
  refine ⟨?_, ?_, ?_, ?_, ?_, ?_, ?_, ?_, ?_, ?_, ?_, ?_, ?_, ?_, ?_, ?_, ?_, ?_, ?_, ?_, ?_, ?_, ?_⟩
  · intro row h hp
    obtain ⟨cid, hc, hrow⟩ := normalize_competition_row d row h
    subst hrow
    exact pyOr_pos _ hp
  · intro row h hp
    obtain ⟨cid, hc, hrow⟩ := normalize_competition_row d row h
    subst hrow
    exact pyOr_pos _ hp
  · intro row h hn hp
    obtain ⟨cid, hc, hrow⟩ := normalize_competition_row d row h
    subst hrow
    exact (pyOr_neg _ hn).trans (pyOr_pos _ hp)
  · intro row h hp
    obtain ⟨cid, hc, hrow⟩ := normalize_competition_row d row h
    subst hrow
    exact pyOr_pos _ hp
  · intro row h hp
    obtain ⟨cid, hc, hrow⟩ := normalize_competition_row d row h
    subst hrow
    exact pyOr_pos _ hp
  · intro row h hp
    obtain ⟨cid, hc, hrow⟩ := normalize_competition_row d row h
    subst hrow
    exact (Except.ok.inj ((category_id_of_pos d hp).symm.trans hc)).symm
  · intro row h hp
    simp only [normalize_category] at h
    have hrow := pure_eq_ok h
    subst hrow
    exact pyOr_pos _ hp
  · intro row h hp
    simp only [normalize_complex] at h
    have hrow := pure_eq_ok h
    subst hrow
    exact pyOr_pos _ hp
  · intro row h hp
    obtain ⟨cn, ctn, ctc, cxid, h1, h2, h3, h4, hrow⟩ := normalize_venue_row d row h
    subst hrow
    exact pyOr_pos _ hp
  · intro c row h hcity hp
    obtain ⟨cn, ctn, ctc, cxid, h1, h2, h3, h4, hrow⟩ := normalize_venue_row d row h
    subst hrow
    rw [hcity, pyOr_pos _ (truthy_dict_of_field hp)] at h1
    have h5 : Except.ok (pyGet c "name") = Except.ok cn := h1
    rw [← Except.ok.inj h5]
    exact pyOr_pos _ hp
  · intro c row h hctry hp
    obtain ⟨cn, ctn, ctc, cxid, h1, h2, h3, h4, hrow⟩ := normalize_venue_row d row h
    subst hrow
    rw [hctry, pyOr_pos _ (truthy_dict_of_field hp)] at h2
    have h5 : Except.ok (pyGet c "name") = Except.ok ctn := h2
    rw [← Except.ok.inj h5]
    exact pyOr_pos _ hp
  · intro c row h hctry hp
    obtain ⟨cn, ctn, ctc, cxid, h1, h2, h3, h4, hrow⟩ := normalize_venue_row d row h
    subst hrow
    rw [hctry, pyOr_pos _ (truthy_dict_of_field hp)] at h3
    have h5 : Except.ok (pyGet c "code") = Except.ok ctc := h3
    rw [← Except.ok.inj h5]
    exact pyOr_pos _ hp
  · intro row h hp
    obtain ⟨cn, ctn, ctc, cxid, h1, h2, h3, h4, hrow⟩ := normalize_venue_row d row h
    subst hrow
    exact pyOr_pos _ hp
  · intro row h hp
    obtain ⟨cn, ctn, ctc, cxid, h1, h2, h3, h4, hrow⟩ := normalize_venue_row d row h
    subst hrow
    exact (Except.ok.inj ((complex_id_of_pos d hp).symm.trans h4)).symm
  · intro row h hp
    obtain ⟨ctn, ctc, ab, h1, h2, h3, hrow⟩ := normalize_competitor_row d row h
    subst hrow
    exact pyOr_pos _ hp
  · intro row h hn hp
    obtain ⟨ctn, ctc, ab, h1, h2, h3, hrow⟩ := normalize_competitor_row d row h
    subst hrow
    exact (pyOr_neg _ hn).trans (pyOr_pos _ hp)
  · intro c row h hctry hp
    obtain ⟨ctn, ctc, ab, h1, h2, h3, hrow⟩ := normalize_competitor_row d row h
    subst hrow
    rw [hctry, pyOr_pos _ (truthy_dict_of_field hp)] at h1
    have h5 : Except.ok (pyGet c "name") = Except.ok ctn := h1
    rw [← Except.ok.inj h5]
    exact pyOr_pos _ hp
  · intro c row h hctry hp
    obtain ⟨ctn, ctc, ab, h1, h2, h3, hrow⟩ := normalize_competitor_row d row h
    subst hrow
    rw [hctry, pyOr_pos _ (truthy_dict_of_field hp)] at h2
    have h5 : Except.ok (pyGet c "code") = Except.ok ctc := h2
    rw [← Except.ok.inj h5]
    exact pyOr_pos _ hp
  · intro row h hp
    obtain ⟨ctn, ctc, ab, h1, h2, h3, hrow⟩ := normalize_competitor_row d row h
    subst hrow
    exact (Except.ok.inj ((abbreviation_of_pos d hp).symm.trans h3)).symm
  · intro row h hn hp
    obtain ⟨ctn, ctc, ab, h1, h2, h3, hrow⟩ := normalize_competitor_row d row h
    subst hrow
    exact (Except.ok.inj ((abbreviation_of_abbr d hn hp).symm.trans h3)).symm
  · intro row h hp
    obtain ⟨cid, h1, hrow⟩ := normalize_ranking_row d row h
    subst hrow
    exact pyOr_pos _ hp
  · intro row h hn hp
    obtain ⟨cid, h1, hrow⟩ := normalize_ranking_row d row h
    subst hrow
    exact (pyOr_neg _ hn).trans (pyOr_pos _ hp)
  · intro c row h hcomp hp
    obtain ⟨cid, h1, hrow⟩ := normalize_ranking_row d row h
    subst hrow
    rw [hcomp, pyOr_pos _ (truthy_dict_of_field hp)] at h1
    have h5 : Except.ok (pyGet c "id") = Except.ok cid := h1
    rw [← Except.ok.inj h5]
    exact pyOr_pos _ hp

/-- Witness for C5 at concrete inputs: primary-wins with both keys
resolvable (`name`, `category_id`, nested `city.name`, `abbreviation`,
nested `competitor.id`) and alternate-wins with the primary absent
(`competition_name`). -/
theorem field_resolution_order_witness :
    rowGet [("competition_id", PyVal.int 1), ("competition_name", PyVal.str "N"),
            ("parent_id", PyVal.none), ("type", PyVal.str ""), ("gender", PyVal.str ""),
            ("category_id", PyVal.int 3)] "competition_name" = PyVal.str "N" ∧
    rowGet [("competition_id", PyVal.int 1), ("competition_name", PyVal.str "N"),
            ("parent_id", PyVal.none), ("type", PyVal.str ""), ("gender", PyVal.str ""),
            ("category_id", PyVal.int 3)] "category_id" = PyVal.int 3 ∧
    rowGet [("competition_id", PyVal.none), ("competition_name", PyVal.str "CN"),
            ("parent_id", PyVal.none), ("type", PyVal.str ""), ("gender", PyVal.str ""),
            ("category_id", PyVal.none)] "competition_name" = PyVal.str "CN" ∧
    rowGet [("venue_id", PyVal.none), ("venue_name", PyVal.str "V"),
            ("city_name", PyVal.str "City"), ("country_name", PyVal.str "Cou"),
            ("country_code", PyVal.str "CC"), ("timezone", PyVal.str "TZ"),
            ("complex_id", PyVal.int 5)] "city_name" = PyVal.str "City" ∧
    rowGet [("competitor_id", PyVal.none), ("name", PyVal.str "NM"),
            ("country", PyVal.str "Cou2"), ("country_code", PyVal.str "K2"),
            ("abbreviation", PyVal.str "AB")] "abbreviation" = PyVal.str "AB" ∧
    rowGet [("rank_pos", PyVal.none), ("movement", PyVal.int 0), ("points", PyVal.int 0),
            ("competitions_played", PyVal.int 7), ("competitor_id", PyVal.int 9),
            ("ranking_date", PyVal.none)] "competitor_id" = PyVal.int 9 := by
  refine ⟨?_, ?_, ?_, ?_, ?_, ?_⟩
  · exact (field_resolution_order [("id", .int 1), ("name", .str "N"),
      ("category_id", .int 3)]).2.1 _ rfl (by decide)
  · exact (field_resolution_order [("id", .int 1), ("name", .str "N"),
      ("category_id", .int 3)]).2.2.2.2.2.1 _ rfl (by decide)
  · exact (field_resolution_order [("competition_name", .str "CN")]).2.2.1 _ rfl
      (by decide) (by decide)
  · exact (field_resolution_order [("city", .dict [("name", .str "City")]),
      ("country", .dict [("name", .str "Cou"), ("code", .str "CC")]), ("name", .str "V"),
      ("timezone", .str "TZ"),
      ("complex_id", .int 5)]).2.2.2.2.2.2.2.2.2.1 [("name", .str "City")] _ rfl rfl (by decide)
  · exact (field_resolution_order [("name", .str "NM"),
      ("country", .dict [("name", .str "Cou2"), ("code", .str "K2")]),
      ("abbreviation", .str "AB")]).2.2.2.2.2.2.2.2.2.2.2.2.2.2.2.2.2.2.1 _ rfl (by decide)
  · exact (field_resolution_order [("competitions_played", .int 7),
      ("competitor", .dict [("id", .int 9)])]).2.2.2.2.2.2.2.2.2.2.2.2.2.2.2.2.2.2.2.2.2.2
      [("id", .int 9)] _ rfl rfl (by decide)

theorem exec_replace_fails (pk : String) (i : Nat) :
    ∀ (rows : List Row) (j : Nat) (tbl : List Row), j ≤ i → i ≤ j + rows.length →
      exec_replace (some i) pk rows j tbl = .error .sqlError := by
  intro rows
  induction rows with
  | nil =>
      intro j tbl h1 h2
      have hij : i = j := Nat.le_antisymm (by simpa using h2) h1
      subst hij
      simp [exec_replace]
  | cons r rest ih =>
      intro j tbl h1 h2
      by_cases he : i = j
      · subst he; simp [exec_replace]
      · have h1b : j + 1 ≤ i := Nat.lt_of_le_of_ne h1 (Ne.symm he)
        simp only [exec_replace]
        rw [if_neg (by simp [he])]
        exact ih (j + 1) _ h1b (by simp only [List.length_cons] at h2; omega)

theorem exec_replace_none (pk : String) :
    ∀ (rows : List Row) (j : Nat) (tbl : List Row),
      exec_replace Option.none pk rows j tbl = .ok (rows.foldl (replaceInto pk) tbl) := by
  intro rows
  induction rows with
  | nil => intro j tbl; rfl
  | cons r rest ih =>
      intro j tbl
      simp only [exec_replace]
      rw [if_neg (by simp)]
      exact ih (j + 1) _

/-- C6: a storage-layer error anywhere in a non-empty batch (the
`conn.execute` of any row, or the final `trans.commit`) rolls the whole
transaction back: `upsert_table` returns the store unchanged (no
partial writes survive), logs the failure (the `rolledBack` outcome)
and returns normally with `None` instead of re-raising, so the caller
continues with the next endpoint group. -/
theorem upsert_storage_error_rolls_back (store : Store) (table_name pk : String)
    (rows : List Row) (i : Nat) (h1 : rows ≠ []) (h2 : i ≤ rows.length) :
    upsert_table (some i) store table_name rows pk = (store, ⟨PyVal.none, .rolledBack⟩) := by
  unfold upsert_table
  rw [if_neg (by simp [h1])]
  rw [exec_replace_fails pk i rows 0 (store table_name) (Nat.zero_le i) (by simpa using h2)]

/-- Witness for C6: the single-row batch whose only `REPLACE INTO`
raises leaves the store untouched. -/
theorem upsert_storage_error_rolls_back_witness :
    upsert_table (some 0) ((fun _ => []) : Store) "Categories"
        [[("category_id", PyVal.int 1)]] "category_id" =
      (((fun _ => []) : Store), ⟨PyVal.none, .rolledBack⟩) :=
  upsert_storage_error_rolls_back _ _ _ _ 0 (by simp) (by simp)

/-- C9 counterexample: `upsert_table` has no return value — Python
returns `None` on every path — so the empty batch returns `None`, not
the count 0 (the store is still untouched and the call ends in the
logged early-return `emptyNoOp`). -/
theorem upsert_empty_returns_none_not_zero :
    (upsert_table Option.none ((fun _ => []) : Store) "Categories" [] "category_id").2.retval =
      PyVal.none ∧
    PyVal.none ≠ PyVal.int 0 ∧
    upsert_table Option.none ((fun _ => []) : Store) "Categories" [] "category_id" =
      (((fun _ => []) : Store), ⟨PyVal.none, .emptyNoOp⟩) :=
  ⟨rfl, fun h => PyVal.noConfusion h, rfl⟩

/-- C9 (amended): `upsert_table` returns `None` on every path rather
than a row count.  Its observable behavior otherwise matches the claim:
an empty batch is an early return with no storage activity, and a
successful non-empty batch executes a `REPLACE INTO` per row, commits
exactly once, and logs a count equal to the number of rows in the
batch. -/
theorem upsert_returns_none_and_commits_once (failAt : Option Nat) (store : Store)
    (table_name pk : String) (rows : List Row) :
    (upsert_table failAt store table_name rows pk).2.retval = PyVal.none ∧
    (rows = [] → upsert_table failAt store table_name rows pk =
      (store, ⟨PyVal.none, .emptyNoOp⟩)) ∧
    (rows ≠ [] → upsert_table Option.none store table_name rows pk =
      (setTable store table_name (rows.foldl (replaceInto pk) (store table_name)),
       ⟨PyVal.none, .committed rows.length⟩)) := by
  refine ⟨?_, ?_, ?_⟩
  · unfold upsert_table
    by_cases hr : rows.isEmpty = true
    · rw [if_pos hr]
    · rw [if_neg hr]
      cases hx : exec_replace failAt pk rows 0 (store table_name) with
      | ok t => rfl
      | error e => rfl
  · intro he; subst he; rfl
  · intro hne
    unfold upsert_table
    rw [if_neg (by simp [hne])]
    rw [exec_replace_none pk rows 0 (store table_name)]

/-- Witness for C9 (amended) on a successful one-row batch. -/
theorem upsert_returns_none_and_commits_once_witness :
    upsert_table Option.none ((fun _ => []) : Store) "Categories"
        [[("category_id", PyVal.int 1)]] "category_id" =
      (setTable ((fun _ => []) : Store) "Categories"
         ([[("category_id", PyVal.int 1)]].foldl (replaceInto "category_id")
           (((fun _ => []) : Store) "Categories")),
       ⟨PyVal.none, .committed 1⟩) :=
  (upsert_returns_none_and_commits_once Option.none ((fun _ => []) : Store) "Categories"
    "category_id" [[("category_id", PyVal.int 1)]]).2.2 (by simp)

theorem get_loop_429 (responses : Nat → Attempt) (url : String)
    (h : ∀ k, respStatus (responses k) = some 429) :
    ∀ (n a s : Nat), get_loop responses url n a s =
      ⟨a + n, s + backoffSum n a,
       .error (.runtimeError ("Max retries exceeded for URL: " ++ url))⟩ := by
  intro n
  induction n with
  | zero => intro a s; simp [get_loop, backoffSum]
  | succ m ih =>
      intro a s
      cases hr : responses a with
      | netErr =>
          have hk := h a
          rw [hr] at hk
          exact Option.noConfusion hk
      | resp st b =>
          have hk := h a
          rw [hr] at hk
          simp only [respStatus, Option.some.injEq] at hk
          subst hk
          have step : get_loop responses url (m + 1) a s =
              get_loop responses url m (a + 1) (s + (a + 1) * 5) := by
            simp only [get_loop]
            rw [hr]
            rfl
          rw [step, ih (a + 1) (s + (a + 1) * 5)]
          simp only [GetResult.mk.injEq]
          refine ⟨by omega, ?_, trivial⟩
          simp only [backoffSum]
          omega

theorem backoffSum_eq (n : Nat) : ∀ a : Nat,
    backoffSum n a = ((List.range n).map (fun k => (a + k + 1) * 5)).sum := by
  induction n with
  | zero => intro a; rfl
  | succ m ih =>
      intro a
      simp only [backoffSum]
      rw [ih (a + 1), List.range_succ_eq_map, List.map_cons, List.map_map, List.sum_cons]
      have hcomp : ((fun k => (a + k + 1) * 5) ∘ Nat.succ) = (fun k : Nat => (a + 1 + k + 1) * 5) := by
        funext k
        simp only [Function.comp_apply]
        omega
      rw [hcomp]

/-- C8: a fetch whose every attempt receives HTTP 429 makes exactly
`max_retries` attempts, then raises the RetriesExhausted `RuntimeError`
naming the URL, and the total backoff slept is
`5 + 10 + ... + 5 * max_retries` seconds. -/
theorem fetch_429_retry_bound (responses : Nat → Attempt) (url : String) (m : Nat)
    (_hm : 1 ≤ m) (h : ∀ k, respStatus (responses k) = some 429) :
    get responses url m =
      ⟨m, ((List.range m).map (fun k => 5 * (k + 1))).sum,
       .error (.runtimeError ("Max retries exceeded for URL: " ++ url))⟩ := by
  have h1 : get responses url m =
      ⟨0 + m, 0 + backoffSum m 0,
       .error (.runtimeError ("Max retries exceeded for URL: " ++ url))⟩ :=
    get_loop_429 responses url h m 0 0
  rw [h1]
  simp only [GetResult.mk.injEq]
  refine ⟨by omega, ?_, trivial⟩
  rw [backoffSum_eq m 0]
  have hfun : (fun k => (0 + k + 1) * 5) = (fun k : Nat => 5 * (k + 1)) := by
    funext k; omega
  rw [hfun]
  omega

/-- Witness for C8: three attempts, all 429, sleep 5 + 10 + 15 = 30
seconds, then RetriesExhausted. -/
theorem fetch_429_retry_bound_witness :
    get (fun _ => .resp 429 PyVal.none) "https://api.example.test/r" 3 =
      ⟨3, 30, .error (.runtimeError
        "Max retries exceeded for URL: https://api.example.test/r")⟩ ∧ 1 ≤ 3 :=
  ⟨(fetch_429_retry_bound (fun _ => .resp 429 PyVal.none) "https://api.example.test/r" 3
      (by decide) (fun k => rfl)).trans rfl,
   by decide⟩

theorem upsert_table_apply (failAt : Option Nat) (store : Store) (name : String)
    (rows : List Row) (pk : String) (t : String) :
    (upsert_table failAt store name rows pk).1 t =
      if t = name then tableEffect failAt rows pk (store name) else store t := by
  unfold upsert_table tableEffect
  by_cases hr : rows.isEmpty = true
  · rw [if_pos hr, if_pos hr]
    by_cases ht : t = name <;> simp [ht]
  · rw [if_neg hr, if_neg hr]
    cases hx : exec_replace failAt pk rows 0 (store name) with
    | ok t2 => rfl
    | error e => by_cases ht : t = name <;> simp [ht]

theorem process_group1_apply (f : GetResult) (dbF : String → Option Nat)
    (s : Store) (t : String) :
    process_group1 f dbF s t =
      match group1_result f with
      | .error _ => s t
      | .ok rows =>
          if t = "Competitions" then tableEffect (dbF "Competitions") rows.2 "competition_id" (s "Competitions")
          else if t = "Categories" then tableEffect (dbF "Categories") rows.1 "category_id" (s "Categories")
          else s t := by
  cases hg : group1_result f with
  | error e => simp only [process_group1, hg]
  | ok rows =>
      simp only [process_group1, hg]
      rw [upsert_table_apply (dbF "Competitions")
        ((upsert_table (dbF "Categories") s "Categories" rows.1 "category_id").1) "Competitions" rows.2 "competition_id" t]
      rw [upsert_table_apply (dbF "Categories") s "Categories" rows.1 "category_id" "Competitions"]
      rw [upsert_table_apply (dbF "Categories") s "Categories" rows.1 "category_id" t]
      rw [if_neg (show ¬("Competitions" = "Categories") by decide)]

theorem process_group1_congr (f : GetResult) (dbF dbF2 : String → Option Nat)
    (s s2 : Store) (t : String)
    (hdb1 : dbF "Categories" = dbF2 "Categories" ∨ t ≠ "Categories")
    (hdb2 : dbF "Competitions" = dbF2 "Competitions" ∨ t ≠ "Competitions")
    (hs : s t = s2 t) :
    process_group1 f dbF s t = process_group1 f dbF2 s2 t := by
  rw [process_group1_apply, process_group1_apply]
  cases hg : group1_result f with
  | error e => exact hs
  | ok rows =>
      show (if t = "Competitions" then tableEffect (dbF "Competitions") rows.2 "competition_id" (s "Competitions")
            else if t = "Categories" then tableEffect (dbF "Categories") rows.1 "category_id" (s "Categories")
            else s t) =
          (if t = "Competitions" then tableEffect (dbF2 "Competitions") rows.2 "competition_id" (s2 "Competitions")
            else if t = "Categories" then tableEffect (dbF2 "Categories") rows.1 "category_id" (s2 "Categories")
            else s2 t)
      by_cases h1 : t = "Competitions"
      · have hdb := hdb2.resolve_right (fun hn => hn h1)
        have hs2 : s "Competitions" = s2 "Competitions" := h1 ▸ hs
        rw [if_pos h1, if_pos h1, hdb, hs2]
      · rw [if_neg h1, if_neg h1]
        by_cases h2 : t = "Categories"
        · have hdb := hdb1.resolve_right (fun hn => hn h2)
          have hs2 : s "Categories" = s2 "Categories" := h2 ▸ hs
          rw [if_pos h2, if_pos h2, hdb, hs2]
        · rw [if_neg h2, if_neg h2]
          exact hs

theorem process_group1_frame (f : GetResult) (dbF : String → Option Nat)
    (s : Store) (t : String)
    (h1 : t ≠ "Categories") (h2 : t ≠ "Competitions") :
    process_group1 f dbF s t = s t := by
  rw [process_group1_apply]
  cases hg : group1_result f with
  | error e => rfl
  | ok rows =>
      show (if t = "Competitions" then tableEffect (dbF "Competitions") rows.2 "competition_id" (s "Competitions")
            else if t = "Categories" then tableEffect (dbF "Categories") rows.1 "category_id" (s "Categories")
            else s t) = s t
      rw [if_neg h2, if_neg h1]


theorem process_group2_apply (f : GetResult) (dbF : String → Option Nat)
    (s : Store) (t : String) :
    process_group2 f dbF s t =
      match group2_result f with
      | .error _ => s t
      | .ok rows =>
          if t = "Venues" then tableEffect (dbF "Venues") rows.2 "venue_id" (s "Venues")
          else if t = "Complexes" then tableEffect (dbF "Complexes") rows.1 "complex_id" (s "Complexes")
          else s t := by
  cases hg : group2_result f with
  | error e => simp only [process_group2, hg]
  | ok rows =>
      simp only [process_group2, hg]
      rw [upsert_table_apply (dbF "Venues")
        ((upsert_table (dbF "Complexes") s "Complexes" rows.1 "complex_id").1) "Venues" rows.2 "venue_id" t]
      rw [upsert_table_apply (dbF "Complexes") s "Complexes" rows.1 "complex_id" "Venues"]
      rw [upsert_table_apply (dbF "Complexes") s "Complexes" rows.1 "complex_id" t]
      rw [if_neg (show ¬("Venues" = "Complexes") by decide)]

theorem process_group2_congr (f : GetResult) (dbF dbF2 : String → Option Nat)
    (s s2 : Store) (t : String)
    (hdb1 : dbF "Complexes" = dbF2 "Complexes" ∨ t ≠ "Complexes")
    (hdb2 : dbF "Venues" = dbF2 "Venues" ∨ t ≠ "Venues")
    (hs : s t = s2 t) :
    process_group2 f dbF s t = process_group2 f dbF2 s2 t := by
  rw [process_group2_apply, process_group2_apply]
  cases hg : group2_result f with
  | error e => exact hs
  | ok rows =>
      show (if t = "Venues" then tableEffect (dbF "Venues") rows.2 "venue_id" (s "Venues")
            else if t = "Complexes" then tableEffect (dbF "Complexes") rows.1 "complex_id" (s "Complexes")
            else s t) =
          (if t = "Venues" then tableEffect (dbF2 "Venues") rows.2 "venue_id" (s2 "Venues")
            else if t = "Complexes" then tableEffect (dbF2 "Complexes") rows.1 "complex_id" (s2 "Complexes")
            else s2 t)
      by_cases h1 : t = "Venues"
      · have hdb := hdb2.resolve_right (fun hn => hn h1)
        have hs2 : s "Venues" = s2 "Venues" := h1 ▸ hs
        rw [if_pos h1, if_pos h1, hdb, hs2]
      · rw [if_neg h1, if_neg h1]
        by_cases h2 : t = "Complexes"
        · have hdb := hdb1.resolve_right (fun hn => hn h2)
          have hs2 : s "Complexes" = s2 "Complexes" := h2 ▸ hs
          rw [if_pos h2, if_pos h2, hdb, hs2]
        · rw [if_neg h2, if_neg h2]
          exact hs

theorem process_group2_frame (f : GetResult) (dbF : String → Option Nat)
    (s : Store) (t : String)
    (h1 : t ≠ "Complexes") (h2 : t ≠ "Venues") :
    process_group2 f dbF s t = s t := by
  rw [process_group2_apply]
  cases hg : group2_result f with
  | error e => rfl
  | ok rows =>
      show (if t = "Venues" then tableEffect (dbF "Venues") rows.2 "venue_id" (s "Venues")
            else if t = "Complexes" then tableEffect (dbF "Complexes") rows.1 "complex_id" (s "Complexes")
            else s t) = s t
      rw [if_neg h2, if_neg h1]


theorem process_group3_apply (f : GetResult) (dbF : String → Option Nat)
    (s : Store) (t : String) :
    process_group3 f dbF s t =
      match group3_result f with
      | .error _ => s t
      | .ok rows =>
          if t = "Competitor_Rankings" then tableEffect (dbF "Competitor_Rankings") rows.2 "rank_id" (s "Competitor_Rankings")
          else if t = "Competitors" then tableEffect (dbF "Competitors") rows.1 "competitor_id" (s "Competitors")
          else s t := by
  cases hg : group3_result f with
  | error e => simp only [process_group3, hg]
  | ok rows =>
      simp only [process_group3, hg]
      rw [upsert_table_apply (dbF "Competitor_Rankings")
        ((upsert_table (dbF "Competitors") s "Competitors" rows.1 "competitor_id").1) "Competitor_Rankings" rows.2 "rank_id" t]
      rw [upsert_table_apply (dbF "Competitors") s "Competitors" rows.1 "competitor_id" "Competitor_Rankings"]
      rw [upsert_table_apply (dbF "Competitors") s "Competitors" rows.1 "competitor_id" t]
      rw [if_neg (show ¬("Competitor_Rankings" = "Competitors") by decide)]

theorem process_group3_congr (f : GetResult) (dbF dbF2 : String → Option Nat)
    (s s2 : Store) (t : String)
    (hdb1 : dbF "Competitors" = dbF2 "Competitors" ∨ t ≠ "Competitors")
    (hdb2 : dbF "Competitor_Rankings" = dbF2 "Competitor_Rankings" ∨ t ≠ "Competitor_Rankings")
    (hs : s t = s2 t) :
    process_group3 f dbF s t = process_group3 f dbF2 s2 t := by
  rw [process_group3_apply, process_group3_apply]
  cases hg : group3_result f with
  | error e => exact hs
  | ok rows =>
      show (if t = "Competitor_Rankings" then tableEffect (dbF "Competitor_Rankings") rows.2 "rank_id" (s "Competitor_Rankings")
            else if t = "Competitors" then tableEffect (dbF "Competitors") rows.1 "competitor_id" (s "Competitors")
            else s t) =
          (if t = "Competitor_Rankings" then tableEffect (dbF2 "Competitor_Rankings") rows.2 "rank_id" (s2 "Competitor_Rankings")
            else if t = "Competitors" then tableEffect (dbF2 "Competitors") rows.1 "competitor_id" (s2 "Competitors")
            else s2 t)
      by_cases h1 : t = "Competitor_Rankings"
      · have hdb := hdb2.resolve_right (fun hn => hn h1)
        have hs2 : s "Competitor_Rankings" = s2 "Competitor_Rankings" := h1 ▸ hs
        rw [if_pos h1, if_pos h1, hdb, hs2]
      · rw [if_neg h1, if_neg h1]
        by_cases h2 : t = "Competitors"
        · have hdb := hdb1.resolve_right (fun hn => hn h2)
          have hs2 : s "Competitors" = s2 "Competitors" := h2 ▸ hs
          rw [if_pos h2, if_pos h2, hdb, hs2]
        · rw [if_neg h2, if_neg h2]
          exact hs

theorem process_group3_frame (f : GetResult) (dbF : String → Option Nat)
    (s : Store) (t : String)
    (h1 : t ≠ "Competitors") (h2 : t ≠ "Competitor_Rankings") :
    process_group3 f dbF s t = s t := by
  rw [process_group3_apply]
  cases hg : group3_result f with
  | error e => rfl
  | ok rows =>
      show (if t = "Competitor_Rankings" then tableEffect (dbF "Competitor_Rankings") rows.2 "rank_id" (s "Competitor_Rankings")
            else if t = "Competitors" then tableEffect (dbF "Competitors") rows.1 "competitor_id" (s "Competitors")
            else s t) = s t
      rw [if_neg h2, if_neg h1]

/-- C7: failures are contained at the endpoint-group boundary of
`main_flow`.  (i) Changing the storage-failure injection only at
`Venues` — e.g. injecting the storage error that makes the Venues
upsert roll back — leaves every other table unchanged: the
already-committed `Categories`/`Competitions` of group 1 are not
undone, and the rankings group still runs and writes
`Competitors`/`Competitor_Rankings` exactly as before.  (ii) Any change
to the competitions endpoint's responses (including ones on which the
group's fetch, extraction or normalization raises) leaves the four
tables of the remaining two groups unchanged — the exception is caught
and logged at the group boundary and the remaining groups run.
(iii) Likewise a changed complexes endpoint does not affect the tables
of groups 1 and 3. -/
theorem group_failure_isolation (w : World) (apiKey : String) (store : Store)
    (dbF2 : String → Option Nat) (api2 api3 : Nat → Attempt) (t u v : String)
    (hdb : ∀ n, n ≠ "Venues" → dbF2 n = w.dbFail n)
    (ht : t ≠ "Venues")
    (hu : u = "Complexes" ∨ u = "Venues" ∨ u = "Competitors" ∨ u = "Competitor_Rankings")
    (hv : v = "Categories" ∨ v = "Competitions" ∨ v = "Competitors" ∨ v = "Competitor_Rankings") :
    main_flow {w with dbFail := dbF2} apiKey store t = main_flow w apiKey store t ∧
    main_flow {w with competitionsApi := api2} apiKey store u = main_flow w apiKey store u ∧
    main_flow {w with complexesApi := api3} apiKey store v = main_flow w apiKey store v := by
  simp only [main_flow]
  refine ⟨?_, ?_, ?_⟩
  · apply process_group3_congr
    · left; exact hdb "Competitors" (by decide)
    · left; exact hdb "Competitor_Rankings" (by decide)
    · apply process_group2_congr
      · left; exact hdb "Complexes" (by decide)
      · right; exact ht
      · apply process_group1_congr
        · left; exact hdb "Categories" (by decide)
        · left; exact hdb "Competitions" (by decide)
        · rfl
  · apply process_group3_congr
    · left; rfl
    · left; rfl
    · apply process_group2_congr
      · left; rfl
      · left; rfl
      · rcases hu with h | h | h | h <;> subst h <;>
          rw [process_group1_frame _ _ _ _ (by decide) (by decide),
            process_group1_frame _ _ _ _ (by decide) (by decide)]
  · apply process_group3_congr
    · left; rfl
    · left; rfl
    · rcases hv with h | h | h | h <;> subst h <;>
        rw [process_group2_frame _ _ _ _ (by decide) (by decide),
          process_group2_frame _ _ _ _ (by decide) (by decide)]

/-- Witness for C7: a run with all three endpoints answering 200 with
an empty JSON object over the empty store; the Venues upsert is made to
fail in the first world, the competitions endpoint to return 404s in
the second, and the complexes endpoint to drop the connection in the
third. -/
theorem group_failure_isolation_witness :
    main_flow ⟨(fun _ => .resp 200 (PyVal.dict [])), (fun _ => .resp 200 (PyVal.dict [])),
        (fun _ => .resp 200 (PyVal.dict [])),
        (fun n => if n = "Venues" then some 0 else Option.none)⟩ "k" (fun _ => [])
        "Categories" =
      main_flow ⟨(fun _ => .resp 200 (PyVal.dict [])), (fun _ => .resp 200 (PyVal.dict [])),
        (fun _ => .resp 200 (PyVal.dict [])), (fun _ => Option.none)⟩ "k" (fun _ => [])
        "Categories" ∧
    main_flow ⟨(fun _ => .resp 404 PyVal.none), (fun _ => .resp 200 (PyVal.dict [])),
        (fun _ => .resp 200 (PyVal.dict [])), (fun _ => Option.none)⟩ "k" (fun _ => [])
        "Venues" =
      main_flow ⟨(fun _ => .resp 200 (PyVal.dict [])), (fun _ => .resp 200 (PyVal.dict [])),
        (fun _ => .resp 200 (PyVal.dict [])), (fun _ => Option.none)⟩ "k" (fun _ => [])
        "Venues" ∧
    main_flow ⟨(fun _ => .resp 200 (PyVal.dict [])), (fun _ => .netErr),
        (fun _ => .resp 200 (PyVal.dict [])), (fun _ => Option.none)⟩ "k" (fun _ => [])
        "Competitions" =
      main_flow ⟨(fun _ => .resp 200 (PyVal.dict [])), (fun _ => .resp 200 (PyVal.dict [])),
        (fun _ => .resp 200 (PyVal.dict [])), (fun _ => Option.none)⟩ "k" (fun _ => [])
        "Competitions" :=
  group_failure_isolation
    ⟨(fun _ => .resp 200 (PyVal.dict [])), (fun _ => .resp 200 (PyVal.dict [])),
     (fun _ => .resp 200 (PyVal.dict [])), (fun _ => Option.none)⟩ "k" (fun _ => [])
    (fun n => if n = "Venues" then some 0 else Option.none)
    (fun _ => .resp 404 PyVal.none) (fun _ => .netErr)
    "Categories" "Venues" "Competitions"
    (fun n hn => if_neg hn) (by decide) (by decide) (by decide)

theorem group3_loop_cons_dict (d : List (String × PyVal)) (rest : List PyVal) :
    group3_loop (PyVal.dict d :: rest) =
      (do
        let compRows ←
          if truthy (pyOr (pyGet d "competitor") emptyDict) then do
            let row ← normalize_competitor (pyOr (pyGet d "competitor") emptyDict)
            pure [row]
          else pure ([] : List Row)
        let rankRow ← normalize_ranking (.dict d)
        let tail ← group3_loop rest
        pure (compRows ++ tail.1, rankRow :: tail.2)) := rfl

/-- C10 (amended): in the rankings endpoint group, every well-formed
ranking item contributes exactly one row to the `Competitor_Rankings`
batch, and contributes a row to the `Competitors` batch exactly when
its `competitor` value is truthy (present and non-empty); a ranking
item with no truthy `competitor` normalizes — producing no competitor
row — to a ranking row whose `competitor_id` is the item's flat
`competitor_id` value (line 143's `or r.get('competitor_id')`
fallback), which is `None` exactly when that key too is absent or
null. -/
theorem rankings_loop_rows (items : List PyVal)
    (h : ∀ r ∈ items, rankItemOk r = true) :
    (∃ crows rrows, group3_loop items = .ok (crows, rrows) ∧
      rrows.length = items.length ∧
      crows.length = (items.filter hasCompetitor).length) ∧
    (∀ d : List (String × PyVal), truthy (pyGet d "competitor") = false →
      ∃ row, normalize_ranking (.dict d) = .ok row ∧
        rowGet row "competitor_id" = pyGet d "competitor_id") := by
  constructor
  · revert h
    induction items with
    | nil => intro _; exact ⟨[], [], rfl, rfl, rfl⟩
    | cons r rest ih =>
        intro h
        have hr := h r (List.mem_cons_self r rest)
        obtain ⟨crows, rrows, hloop, hlen, hcount⟩ :=
          ih (fun x hx => h x (List.mem_cons_of_mem r hx))
        cases r with
        | dict d =>
            by_cases htr : truthy (pyGet d "competitor") = true
            · -- a truthy competitor must be a dict accepted by competitorOk
              cases hcv : pyGet d "competitor" with
              | dict c =>
                  have hcok : competitorOk c = true := by
                    have hr2 := hr
                    simp only [rankItemOk] at hr2
                    rw [hcv] at hr2
                    exact hr2
                  have htc : truthy (PyVal.dict c) = true := hcv ▸ htr
                  obtain ⟨crow, hcrow⟩ := normalize_competitor_total c hcok
                  have hrk : rankingOk d = true := by
                    unfold rankingOk nestedOk
                    rw [hcv]
                  obtain ⟨rrow, hrrow⟩ := normalize_ranking_total d hrk
                  refine ⟨crow :: crows, rrow :: rrows, ?_, ?_, ?_⟩
                  · rw [group3_loop_cons_dict, hcv, pyOr_pos emptyDict htc, htc,
                      hcrow, hrrow, hloop]
                    rfl
                  · simp [hlen]
                  · rw [List.filter_cons]
                    have hhc : hasCompetitor (PyVal.dict d) = true := by
                      simp only [hasCompetitor]
                      exact htr
                    rw [hhc]
                    simp [hcount]
              | none => rw [hcv] at htr; exact Bool.noConfusion htr
              | bool b =>
                  have hr2 := hr
                  simp only [rankItemOk] at hr2
                  rw [hcv] at hr2
                  have hr3 : (!truthy (PyVal.bool b)) = true := hr2
                  rw [hcv] at htr
                  rw [htr] at hr3
                  exact Bool.noConfusion hr3
              | int n =>
                  have hr2 := hr
                  simp only [rankItemOk] at hr2
                  rw [hcv] at hr2
                  have hr3 : (!truthy (PyVal.int n)) = true := hr2
                  rw [hcv] at htr
                  rw [htr] at hr3
                  exact Bool.noConfusion hr3
              | str s =>
                  have hr2 := hr
                  simp only [rankItemOk] at hr2
                  rw [hcv] at hr2
                  have hr3 : (!truthy (PyVal.str s)) = true := hr2
                  rw [hcv] at htr
                  rw [htr] at hr3
                  exact Bool.noConfusion hr3
              | list l =>
                  have hr2 := hr
                  simp only [rankItemOk] at hr2
                  rw [hcv] at hr2
                  have hr3 : (!truthy (PyVal.list l)) = true := hr2
                  rw [hcv] at htr
                  rw [htr] at hr3
                  exact Bool.noConfusion hr3
            · have htr2 : truthy (pyGet d "competitor") = false :=
                Bool.not_eq_true _ ▸ (Bool.of_not_eq_true htr)
              have hrk : ∃ rrow, normalize_ranking (.dict d) = .ok rrow := by
                simp only [normalize_ranking]
                rw [pyOr_neg emptyDict htr2]
                exact ⟨_, rfl⟩
              obtain ⟨rrow, hrrow⟩ := hrk
              refine ⟨crows, rrow :: rrows, ?_, ?_, ?_⟩
              · rw [group3_loop_cons_dict, pyOr_neg emptyDict htr2, hrrow, hloop]
                rfl
              · simp [hlen]
              · rw [List.filter_cons]
                have hhc : hasCompetitor (PyVal.dict d) = false := by
                  simp only [hasCompetitor]
                  exact htr2
                rw [hhc]
                simp [hcount]
        | none => exact Bool.noConfusion hr
        | bool b => exact Bool.noConfusion hr
        | int n => exact Bool.noConfusion hr
        | str s => exact Bool.noConfusion hr
        | list l => exact Bool.noConfusion hr
  · intro d h1
    simp only [normalize_ranking]
    rw [pyOr_neg emptyDict h1]
    refine ⟨_, rfl, ?_⟩
    rfl

/-- C10 counterexample: a ranking item without a `competitor` object
but with the flat `competitor_id` key 42 contributes no competitor row,
yet its ranking row carries `competitor_id = 42`, not `None`: line 143
falls back to `r.get('competitor_id')`. -/
theorem ranking_without_competitor_object_uses_flat_id :
    group3_loop [PyVal.dict [("rank", .int 1), ("competitor_id", .int 42)]] =
      .ok ([], [[("rank_pos", .int 1), ("movement", .int 0), ("points", .int 0),
        ("competitions_played", .int 0), ("competitor_id", .int 42),
        ("ranking_date", PyVal.none)]]) ∧
    PyVal.int 42 ≠ PyVal.none :=
  ⟨rfl, fun h => PyVal.noConfusion h⟩

/-- Witness for C10 (amended): two ranking items — one without a
competitor, one with `competitor {id: 9}` — yield two ranking rows but
a single competitor row; a competitor-less item with no flat
`competitor_id` gets `competitor_id = None`, and one with the flat key
42 gets 42. -/
theorem rankings_loop_rows_witness :
    (∃ crows rrows,
      group3_loop [PyVal.dict [("rank", .int 1)],
        PyVal.dict [("rank", .int 2), ("competitor", .dict [("id", .int 9)])]] =
        .ok (crows, rrows) ∧ rrows.length = 2 ∧ crows.length = 1) ∧
    (∃ row, normalize_ranking (.dict [("rank", .int 1)]) = .ok row ∧
      rowGet row "competitor_id" = PyVal.none) ∧
    (∃ row, normalize_ranking (.dict [("rank", .int 3), ("competitor_id", .int 42)]) =
      .ok row ∧ rowGet row "competitor_id" = PyVal.int 42) := by
  have h := rankings_loop_rows [PyVal.dict [("rank", .int 1)],
    PyVal.dict [("rank", .int 2), ("competitor", .dict [("id", .int 9)])]] (by decide)
  exact ⟨h.1, h.2 [("rank", .int 1)] (by decide),
    h.2 [("rank", .int 3), ("competitor_id", .int 42)] (by decide)⟩
